import Mathlib

/-!
Verification development for the Real-Time Quantitative Analytics Dashboard
backend (files `backend/analytics.py`, `backend/data_storage.py`,
`backend/main.py`).

Modelling conventions, used uniformly below:

* Python floats are modelled by the type `V`: either an exact real number of
  the form `a * sqrt r` with `a r : ℚ` and `r ≥ 0` (constructor `V.num a r`;
  plain rationals are `V.num q 1`), or one of the IEEE special values
  `nan`, `inf`, `neginf`.  Every number produced by the pipeline (spreads,
  z-scores, correlations, standard deviations) has this `a * sqrt r` shape,
  so real-number equality of two values is decidable (`vEq`).  This is the
  usual exact-real idealisation of float arithmetic.
* A pandas `Series` is a list of `(timestamp, value)` pairs with strictly
  increasing integer timestamps (the invariant the resampler guarantees for
  the close-price series fed to the analytics engine); a missing entry of a
  raw input series is `Option.none`.
* `scipy.stats.linregress` raises `ValueError` when all x values are
  identical; `pair_analysis.analyze_pair` does not catch it, which the
  outcome `AnalyzeOutcome.raised` records.  `statsmodels.adfuller` is an
  external numerical routine; it is modelled as an explicit function
  parameter (`oracle`), so every theorem holds for an arbitrary
  implementation of it.
-/

/-- Model of a Python float value: `num a r` denotes the real number
`a * Real.sqrt r` (with `r ≥ 0` in all constructed values), and the three
IEEE special values. -/
inductive V where
  | num (a r : ℚ)
  | nan
  | inf
  | neginf
deriving DecidableEq

/-- `pd.isna` on a float: true exactly on NaN. -/
def isNanB : V → Bool
  | V.nan => true
  | _ => false

/-- `np.isinf` on a float: true exactly on the two infinities. -/
def isInfB : V → Bool
  | V.inf => true
  | V.neginf => true
  | _ => false

/-- Sign of the real number `a * sqrt r` (0 when either factor vanishes). -/
def vsgn (a r : ℚ) : Int :=
  if a = 0 ∨ r = 0 then 0 else if 0 < a then 1 else -1

/-- Decidable real-number equality on `V` values: `a * sqrt r = b * sqrt s`
iff the squares and the signs agree (for `r, s ≥ 0`).  Specials are equal
only to themselves, mirroring how `pandas.Series.nunique` buckets float
values (it never compares NaN, which it drops first). -/
def vEq : V → V → Bool
  | V.num a r, V.num b s =>
      decide (a ^ 2 * r = b ^ 2 * s) && decide (vsgn a r = vsgn b s)
  | V.nan, V.nan => true
  | V.inf, V.inf => true
  | V.neginf, V.neginf => true
  | _, _ => false

/-- Number of `vEq`-distinct values in a list. -/
def countDistinct (l : List V) : ℕ :=
  (l.foldl (fun acc v => if acc.any (vEq v) then acc else v :: acc) []).length

/-- `pandas.Series.nunique`: distinct non-NaN values. -/
def nuniqueV (l : List V) : ℕ :=
  countDistinct (l.filter (fun v => !(isNanB v)))

/-- `analytics.is_plot_safe` (analytics.py lines 12-31): a series is safe for
visualization iff it has at least `min_points` points, contains no NaN and no
infinity, and is not constant. -/
def is_plot_safe (s : List (ℕ × V)) (min_points : ℕ) : Bool :=
  if s.length < min_points then false
  else if s.any (fun p => isNanB p.2) || s.any (fun p => isInfB p.2) then false
  else if nuniqueV (s.map Prod.snd) ≤ 1 then false
  else true

/-- `series_to_list_safe` (analytics.py lines 238-260): empty list unless the
series is plot-safe; then the (timestamp, value) pairs with NaN/inf entries
skipped, emptied again if fewer than 2 entries remain. -/
def series_to_list_safe (s : List (ℕ × V)) : List (ℕ × V) :=
  if !(is_plot_safe s 3) then []
  else
    let r := s.filter (fun p => !(isNanB p.2 || isInfB p.2))
    if r.length < 2 then [] else r

/-- The consumer-safety property of a gated series: empty, or at least 2
points, no NaN/inf, and at least 2 distinct values. -/
def goodSeriesB (l : List (ℕ × V)) : Bool :=
  l.isEmpty ||
    (decide (2 ≤ l.length) &&
     l.all (fun p => !(isNanB p.2 || isInfB p.2)) &&
     decide (2 ≤ countDistinct (l.map Prod.snd)))

/-- Arithmetic mean of a list of rationals (`Series.mean`). -/
def qmean (l : List ℚ) : ℚ := l.sum / (l.length : ℚ)

/-- Centred sum of squares `Σ (x - mean)^2`.  Sample variance and the
`linregress` denominators are ratios of such sums, so the `ddof` convention
cancels wherever it matters. -/
def qsxx (l : List ℚ) : ℚ := (l.map (fun x => (x - qmean l) ^ 2)).sum

/-- Centred sum of products `Σ (x - mean xs) * (y - mean ys)` over two
equally long lists. -/
def qsxy (xs ys : List ℚ) : ℚ :=
  ((xs.zip ys).map (fun p => (p.1 - qmean xs) * (p.2 - qmean ys))).sum

/-- `np.amax(x) == np.amin(x)`: all entries equal. -/
def isConstant (l : List ℚ) : Bool :=
  match l with
  | [] => true
  | a :: t => t.all (fun x => decide (x = a))

/-- Time-series alignment (analytics.py lines 171-177):
`pd.DataFrame({'p1': prices1, 'p2': prices2}).dropna()` keeps exactly the
timestamps where both series have a present value.  For series with strictly
increasing timestamp indexes (the resampler's invariant) the surviving rows
appear in the order of `s1`. -/
def alignPair (s1 s2 : List (ℕ × Option ℚ)) : List (ℕ × ℚ × ℚ) :=
  s1.filterMap (fun p =>
    match p.2, s2.lookup p.1 with
    | some q1, some (some q2) => some (p.1, q1, q2)
    | _, _ => none)

/-- Hedge ratio (analytics.py lines 196-204): 1.0 when fewer than 10 aligned
points, otherwise the OLS slope of `p1` on `p2` from `stats.linregress`,
`slope = ssxym / ssxm` in centred sums. -/
def hedgeOf (aligned : List (ℕ × ℚ × ℚ)) : ℚ :=
  if aligned.length < 10 then 1
  else qsxy (aligned.map (fun a => a.2.2)) (aligned.map (fun a => a.2.1)) /
       qsxx (aligned.map (fun a => a.2.2))

/-- `r_squared` (analytics.py lines 199-205): 0.0 below 10 aligned points;
otherwise `r ** 2` where `linregress` sets `r = 0.0` when the y-variance
vanishes and `r = ssxym / sqrt(ssxm * ssym)` otherwise (the x-variance is
nonzero whenever `linregress` returns at all). -/
def r2Of (aligned : List (ℕ × ℚ × ℚ)) : ℚ :=
  if aligned.length < 10 then 0
  else if qsxx (aligned.map (fun a => a.2.1)) = 0 then 0
  else qsxy (aligned.map (fun a => a.2.2)) (aligned.map (fun a => a.2.1)) ^ 2 /
       (qsxx (aligned.map (fun a => a.2.2)) * qsxx (aligned.map (fun a => a.2.1)))

/-- Spread (analytics.py lines 208-209): `p1 - hedge_ratio * p2` on the
aligned rows.  With a rational hedge ratio every entry is finite, so the
`replace([inf, -inf], nan).dropna()` sanitisation keeps all rows. -/
def spreadOf (aligned : List (ℕ × ℚ × ℚ)) (h : ℚ) : List (ℕ × ℚ) :=
  aligned.map (fun a => (a.1, a.2.1 - h * a.2.2))

/-- The spread series produced by `analyze_pair` for the given raw inputs. -/
def spreadSeries (s1 s2 : List (ℕ × Option ℚ)) : List (ℕ × ℚ) :=
  spreadOf (alignPair s1 s2) (hedgeOf (alignPair s1 s2))

/-- The trailing window of length `w` ending at index `i` (the rows a pandas
rolling aggregate at position `i` sees once `w ≤ i + 1`). -/
def windowAt {α : Type} (l : List α) (w i : ℕ) : List α :=
  (l.take (i + 1)).drop (i + 1 - w)

/-- Rolling sample variance at index `i` (pandas `rolling(w).std() ** 2`,
`ddof = 1`): undefined (NaN) when the window holds fewer than 2 values. -/
def windowVar (vals : List ℚ) (w i : ℕ) : Option ℚ :=
  let win := windowAt vals w i
  if win.length < 2 then none
  else some (qsxx win / ((win.length - 1 : ℕ) : ℚ))

/-- One entry of the rolling z-score (analytics.py lines 212-217): NaN (and
hence dropped) while the window is not yet full, when the window variance is
undefined, and when the rolling std is exactly zero (`replace(0, np.nan)`);
otherwise `(x - mean) / sqrt var = ((x - mean) / var) * sqrt var`. -/
def zscoreEntry (spread : List (ℕ × ℚ)) (w i : ℕ) : Option (ℕ × V) :=
  if i + 1 < w then none
  else
    match windowVar (spread.map Prod.snd) w i, spread[i]? with
    | some v, some p =>
        if v = 0 then none
        else some (p.1, V.num ((p.2 - qmean (windowAt (spread.map Prod.snd) w i)) / v) v)
    | _, _ => none

/-- Rolling z-score of the spread (analytics.py lines 212-219, identical to
`QuantAnalytics.compute_rolling_zscore`): empty when the spread is shorter
than the window, otherwise the defined entries in timestamp order. -/
def rollingZscore (spread : List (ℕ × ℚ)) (w : ℕ) : List (ℕ × V) :=
  if spread.length < w then []
  else (List.range spread.length).filterMap (zscoreEntry spread w)

/-- The pre-gate z-score series of `analyze_pair`. -/
def zscoreSeries (s1 s2 : List (ℕ × Option ℚ)) (w : ℕ) : List (ℕ × V) :=
  rollingZscore (spreadSeries s1 s2) w

/-- One entry of the rolling correlation (analytics.py lines 222-224): NaN
(dropped) while the window is not full or when either window variance is
zero (pandas yields `0/0`); otherwise
`cov / sqrt(var1 * var2) = (cov / (var1 * var2)) * sqrt(var1 * var2)`. -/
def corrEntry (aligned : List (ℕ × ℚ × ℚ)) (w i : ℕ) : Option (ℕ × V) :=
  if i + 1 < w then none
  else
    let win := windowAt aligned w i
    let xs := win.map (fun a => a.2.1)
    let ys := win.map (fun a => a.2.2)
    if win.length < 2 then none
    else if qsxx xs = 0 ∨ qsxx ys = 0 then none
    else
      match aligned[i]? with
      | some a => some (a.1, V.num (qsxy xs ys / (qsxx xs * qsxx ys)) (qsxx xs * qsxx ys))
      | none => none

/-- Rolling correlation of the aligned close prices (analytics.py lines
222-226): empty when fewer aligned rows than the window. -/
def rollingCorr (aligned : List (ℕ × ℚ × ℚ)) (w : ℕ) : List (ℕ × V) :=
  if aligned.length < w then []
  else (List.range aligned.length).filterMap (corrEntry aligned w)

/-- The pre-gate correlation series of `analyze_pair`. -/
def corrSeries (s1 s2 : List (ℕ × Option ℚ)) (w : ℕ) : List (ℕ × V) :=
  rollingCorr (alignPair s1 s2) w

/-- Minimum of a list of rationals (0 for the empty list, which the callers
never pass). -/
def qmin (l : List ℚ) : ℚ :=
  match l with
  | [] => 0
  | a :: t => t.foldl min a

/-- Maximum of a list of rationals. -/
def qmax (l : List ℚ) : ℚ :=
  match l with
  | [] => 0
  | a :: t => t.foldl max a

/-- `Series.pct_change()` without its leading NaN: `p_i / p_{i-1} - 1`, with
the IEEE outcomes of dividing by a zero previous price. -/
def pctChanges (l : List ℚ) : List V :=
  (l.zip l.tail).map (fun p =>
    if p.1 = 0 then
      if p.2 = 0 then V.nan else if 0 < p.2 then V.inf else V.neginf
    else V.num (p.2 / p.1 - 1) 1)

/-- Annualised volatility (analytics.py lines 43-45):
`pct_change().std() * sqrt(252)`, with the guard mapping a NaN or infinite
std to 0.0.  pandas `std` skips NaN entries, returns NaN when an infinity
remains or when fewer than two valid entries remain. -/
def volatilityOf (l : List ℚ) : V :=
  let rs := pctChanges l
  if rs.any isInfB then V.num 0 1
  else
    let fin := rs.filterMap (fun v => match v with | V.num a _ => some a | _ => none)
    if fin.length < 2 then V.num 0 1
    else V.num 1 (252 * (qsxx fin / ((fin.length - 1 : ℕ) : ℚ)))

/-- The dictionary built by `QuantAnalytics.compute_basic_stats`; every field
is finite by construction, so `sanitize_dict` maps the block to itself. -/
structure StatsBlock where
  mean : ℚ
  std : V
  min : ℚ
  max : ℚ
  last : ℚ
  volatility : V
deriving DecidableEq

/-- `compute_basic_stats` (analytics.py lines 37-54): empty dict (`none`)
below 2 points. -/
def basicStats (l : List ℚ) : Option StatsBlock :=
  if l.length < 2 then none
  else some {
    mean := qmean l
    std := V.num 1 (qsxx l / ((l.length - 1 : ℕ) : ℚ))
    min := qmin l
    max := qmax l
    last := l.getLastD 0
    volatility := volatilityOf l }

/-- The numeric payload of a successful `adfuller` call. -/
structure ADFStats where
  adf_statistic : V
  p_value : V
  used_lag : Int
  n_observations : Int
  crit1 : V
  crit5 : V
  crit10 : V
  is_stationary : Bool
deriving DecidableEq

/-- Result of `augmented_dickey_fuller_test`: an error dict (also produced
when `adfuller` throws) or the statistics dict. -/
inductive ADFRes where
  | err (msg : String)
  | ok (s : ADFStats)
deriving DecidableEq

/-- `augmented_dickey_fuller_test` (analytics.py lines 118-144): the explicit
error marker below 12 points, otherwise whatever the external `adfuller`
routine (the `oracle` parameter) produces. -/
def adfTest (oracle : List ℚ → ADFRes) (s : List ℚ) : ADFRes :=
  if s.length < 12 then ADFRes.err "Insufficient data for ADF test" else oracle s

/-- `sanitize_value` (analytics.py lines 262-274) on a float: NaN and the
infinities become the missing marker `none`. -/
def sanitizeV : V → Option V
  | V.num a r => some (V.num a r)
  | _ => none

/-- Sanitised ADF statistics (numeric fields passed through
`sanitize_value`). -/
structure SanADFStats where
  adf_statistic : Option V
  p_value : Option V
  used_lag : Int
  n_observations : Int
  crit1 : Option V
  crit5 : Option V
  crit10 : Option V
  is_stationary : Bool
deriving DecidableEq

/-- The ADF sub-block after `sanitize_dict`. -/
inductive SanADFRes where
  | err (msg : String)
  | ok (s : SanADFStats)
deriving DecidableEq

/-- `sanitize_dict` applied to the ADF result: error strings pass through
unchanged, numeric fields go through `sanitize_value`. -/
def sanitizeADF : ADFRes → SanADFRes
  | ADFRes.err m => SanADFRes.err m
  | ADFRes.ok s => SanADFRes.ok {
      adf_statistic := sanitizeV s.adf_statistic
      p_value := sanitizeV s.p_value
      used_lag := s.used_lag
      n_observations := s.n_observations
      crit1 := sanitizeV s.crit1
      crit5 := sanitizeV s.crit5
      crit10 := sanitizeV s.crit10
      is_stationary := s.is_stationary }

/-- `sanitize_value(series.iloc[-1] if len(series) > 0 else None)` for a
rational-valued series. -/
def currentOfQ (l : List (ℕ × ℚ)) : Option V :=
  match l.getLast? with
  | none => none
  | some p => sanitizeV (V.num p.2 1)

/-- `sanitize_value(series.iloc[-1] if len(series) > 0 else None)` for a
`V`-valued series. -/
def currentOfV (l : List (ℕ × V)) : Option V :=
  match l.getLast? with
  | none => none
  | some p => sanitizeV p.2

/-- The full (non-error) dictionary returned by `PairAnalysis.analyze_pair`
(analytics.py lines 284-303). -/
structure FullResult where
  symbol1 : String
  symbol2 : String
  hedge_ratio : Option V
  r_squared : Option V
  current_spread : Option V
  current_zscore : Option V
  current_correlation : Option V
  stats1 : Option StatsBlock
  stats2 : Option StatsBlock
  spread_stats : Option StatsBlock
  adf_test : SanADFRes
  series_spread : List (ℕ × V)
  series_zscore : List (ℕ × V)
  series_correlation : List (ℕ × V)
deriving DecidableEq

/-- The full result assembled by `analyze_pair` once the alignment gate has
passed and `linregress` has not raised. -/
def fullResultOf (oracle : List ℚ → ADFRes) (sym1 sym2 : String)
    (s1 s2 : List (ℕ × Option ℚ)) (window : ℕ) : FullResult :=
  { symbol1 := sym1
    symbol2 := sym2
    hedge_ratio := sanitizeV (V.num (hedgeOf (alignPair s1 s2)) 1)
    r_squared := sanitizeV (V.num (r2Of (alignPair s1 s2)) 1)
    current_spread := currentOfQ (spreadSeries s1 s2)
    current_zscore := currentOfV (zscoreSeries s1 s2 window)
    current_correlation := currentOfV (corrSeries s1 s2 window)
    stats1 := basicStats ((alignPair s1 s2).map (fun a => a.2.1))
    stats2 := basicStats ((alignPair s1 s2).map (fun a => a.2.2))
    spread_stats := basicStats ((spreadSeries s1 s2).map Prod.snd)
    adf_test := sanitizeADF (adfTest oracle ((spreadSeries s1 s2).map Prod.snd))
    series_spread :=
      series_to_list_safe ((spreadSeries s1 s2).map (fun p => (p.1, V.num p.2 1)))
    series_zscore := series_to_list_safe (zscoreSeries s1 s2 window)
    series_correlation := series_to_list_safe (corrSeries s1 s2 window) }

/-- Outcome of `PairAnalysis.analyze_pair`: the insufficient-data error dict
(with the observed aligned count and the requirement), an uncaught
`ValueError` escaping from `stats.linregress` (all x values identical with
at least 10 aligned points), or the full result. -/
inductive AnalyzeOutcome where
  | insufficient (observed required : ℕ)
  | raised
  | ok (f : FullResult)
deriving DecidableEq

/-- `PairAnalysis.analyze_pair` (analytics.py lines 153-309). -/
def analyzePair (oracle : List ℚ → ADFRes) (sym1 sym2 : String)
    (s1 s2 : List (ℕ × Option ℚ)) (window : ℕ) : AnalyzeOutcome :=
  if (alignPair s1 s2).length < max 5 window then
    AnalyzeOutcome.insufficient (alignPair s1 s2).length (max 5 window)
  else if 10 ≤ (alignPair s1 s2).length ∧
      isConstant ((alignPair s1 s2).map (fun a => a.2.2)) then
    AnalyzeOutcome.raised
  else
    AnalyzeOutcome.ok (fullResultOf oracle sym1 sym2 s1 s2 window)

/-- The gating invariant, read off an analysis outcome: when a full result is
returned, each of its three gated series is consumer-safe. -/
def resultSeriesOk : AnalyzeOutcome → Bool
  | AnalyzeOutcome.insufficient _ _ => true
  | AnalyzeOutcome.raised => true
  | AnalyzeOutcome.ok f =>
      goodSeriesB f.series_spread && goodSeriesB f.series_zscore &&
        goodSeriesB f.series_correlation

/-- A trivial stand-in for the external `adfuller` routine, used to
instantiate the oracle parameter at concrete inputs. -/
def oracle0 : List ℚ → ADFRes := fun _ => ADFRes.err "adfuller not invoked"

/-- A canonical tick (data_storage.py / data_ingestion.py): symbol,
epoch-second timestamp, price, quantity. -/
structure Tick where
  symbol : String
  timestamp : ℕ
  price : ℚ
  quantity : ℚ
deriving DecidableEq

/-- Append to a `deque(maxlen=cap)`: the new element goes to the tail and the
head is evicted when the capacity would be exceeded. -/
def dequePush {α : Type} (cap : ℕ) (l : List α) (a : α) : List α :=
  if cap < l.length + 1 then (l ++ [a]).drop (l.length + 1 - cap) else l ++ [a]

/-- `defaultdict` key materialisation: reading a missing key inserts it with
the factory default `d` (at the end of the key order, as Python dicts do). -/
def assocEnsure {κ β : Type} [DecidableEq κ] (l : List (κ × β)) (k : κ) (d : β) :
    List (κ × β) :=
  if l.any (fun p => decide (p.1 = k)) then l else l ++ [(k, d)]

/-- Value lookup in an association list, with a default for missing keys. -/
def assocGet {κ β : Type} [DecidableEq κ] (l : List (κ × β)) (k : κ) (d : β) : β :=
  match l.find? (fun p => decide (p.1 = k)) with
  | some p => p.2
  | none => d

/-- In-place update of the value stored under key `k`. -/
def assocUpdate {κ β : Type} [DecidableEq κ] (l : List (κ × β)) (k : κ) (f : β → β) :
    List (κ × β) :=
  l.map (fun p => if p.1 = k then (p.1, f p.2) else p)

/-- Store a value under key `k`, overwriting an existing entry or appending a
new one (Python dict assignment). -/
def assocSet {κ β : Type} [DecidableEq κ] (l : List (κ × β)) (k : κ) (v : β) :
    List (κ × β) :=
  if l.any (fun p => decide (p.1 = k)) then
    l.map (fun p => if p.1 = k then (p.1, v) else p)
  else l ++ [(k, v)]

/-- One OHLCV bar produced by the resampler. -/
structure Bar where
  timestamp : ℕ
  open_ : ℚ
  high : ℚ
  low : ℚ
  close : ℚ
  volume : ℚ
deriving DecidableEq

/-- The in-memory state of `DataStorage`: the per-symbol tick buffers
(`defaultdict(lambda: deque(maxlen=10000))`) and the per-(symbol, timeframe)
resampled tables.  The SQLite mirror is external fire-and-forget state and
is not part of the in-memory model. -/
structure Storage where
  tickBuffer : List (String × List Tick)
  resampled : List ((String × String) × List Bar)
deriving DecidableEq

/-- A freshly constructed `DataStorage`. -/
def initStorage : Storage := { tickBuffer := [], resampled := [] }

/-- `DataStorage.add_tick` (data_storage.py lines 52-57):
`self.tick_buffer[symbol].append(tick)` — materialise the symbol's deque and
append with capacity 10000. -/
def addTick (st : Storage) (t : Tick) : Storage :=
  { st with
    tickBuffer :=
      assocUpdate (assocEnsure st.tickBuffer t.symbol []) t.symbol
        (fun d => dequePush 10000 d t) }

/-- The slice `ticks[-limit:] if len(ticks) > limit else ticks`; note that
Python's `ticks[-0:]` is the whole list. -/
def recentSlice (ticks : List Tick) (limit : ℕ) : List Tick :=
  if limit < ticks.length then
    (if limit = 0 then ticks else ticks.drop (ticks.length - limit))
  else ticks

/-- `DataStorage.get_recent_ticks` (data_storage.py lines 59-62).  Note the
side effect: `self.tick_buffer[symbol]` materialises an unknown symbol in
the `defaultdict`. -/
def getRecentTicks (st : Storage) (sym : String) (limit : ℕ) :
    List Tick × Storage :=
  (recentSlice (assocGet (assocEnsure st.tickBuffer sym []) sym []) limit,
   { st with tickBuffer := assocEnsure st.tickBuffer sym [] })

/-- `DataStorage.get_all_symbols` (data_storage.py lines 138-140): the
buffer's key list. -/
def getAllSymbols (st : Storage) : List String :=
  st.tickBuffer.map Prod.fst

/-- OHLCV aggregation of a tick list into fixed `secs`-wide buckets
(data_storage.py lines 74-92): for every non-empty bucket, open/close are the
first/last price in the bucket, high/low the extrema, volume the quantity
sum; empty buckets are dropped by `dropna(subset=['close'])`. -/
def computeBars (ticks : List Tick) (secs : ℕ) : List Bar :=
  match ticks with
  | [] => []
  | t0 :: _ =>
    let ids := ticks.map (fun t => t.timestamp / secs)
    let lo := ids.foldl min (t0.timestamp / secs)
    let hi := ids.foldl max (t0.timestamp / secs)
    ((List.range (hi - lo + 1)).map (fun j => lo + j)).filterMap (fun b =>
      match ticks.filter (fun t => decide (t.timestamp / secs = b)) with
      | [] => none
      | u :: us => some {
          timestamp := b * secs
          open_ := u.price
          high := (us.map (fun t => t.price)).foldl max u.price
          low := (us.map (fun t => t.price)).foldl min u.price
          close := ((u :: us).getLastD u).price
          volume := ((u :: us).map (fun t => t.quantity)).sum })

/-- `DataStorage.resample_to_ohlcv` (data_storage.py lines 64-106): read the
buffer (default limit 1000), return `none` below 2 ticks, otherwise compute
the bars and replace the in-memory `(symbol, timeframe)` table wholesale.
The `_persist_ohlcv` step only touches external durable storage. -/
def resampleToOhlcv (st : Storage) (sym tf : String) (secs : ℕ) :
    Option (List Bar) × Storage :=
  if (getRecentTicks st sym 1000).1.length < 2 then
    (none, (getRecentTicks st sym 1000).2)
  else
    (some (computeBars (getRecentTicks st sym 1000).1 secs),
     { (getRecentTicks st sym 1000).2 with
       resampled := assocSet (getRecentTicks st sym 1000).2.resampled (sym, tf)
         (computeBars (getRecentTicks st sym 1000).1 secs) })

/-- The storage operations a caller can interleave (claim C5). -/
inductive StoreOp where
  | add (t : Tick)
  | readRecent (sym : String) (limit : ℕ)
deriving DecidableEq

/-- Apply one storage operation to the state (`get_all_symbols` is pure and
needs no entry here). -/
def applyOp (st : Storage) : StoreOp → Storage
  | StoreOp.add t => addTick st t
  | StoreOp.readRecent sym limit => (getRecentTicks st sym limit).2

/-- Run a sequence of storage operations from a state. -/
def runOps (ops : List StoreOp) (st : Storage) : Storage :=
  ops.foldl applyOp st

/-- A row of an in-memory OHLCV table as the HTTP layer sees it: float64
columns, so every field can also be NaN or infinite. -/
structure VBar where
  timestamp : ℕ
  open_ : V
  high : V
  low : V
  close : V
  volume : V
deriving DecidableEq

/-- `not row.isna().any()`: no column of the bar is NaN (infinities pass). -/
def vbarNoNan (b : VBar) : Bool :=
  !(isNanB b.open_ || isNanB b.high || isNanB b.low || isNanB b.close || isNanB b.volume)

/-- All five columns are finite (non-NaN and non-infinite) numbers. -/
def vbarFinite (b : VBar) : Bool :=
  !(isNanB b.open_ || isInfB b.open_ ||
    isNanB b.high || isInfB b.high ||
    isNanB b.low || isInfB b.low ||
    isNanB b.close || isInfB b.close ||
    isNanB b.volume || isInfB b.volume)

/-- The `get_ohlcv` endpoint (main.py lines 118-148) applied to an in-memory
table: `df.tail(limit)` (done inside `DataStorage.get_ohlcv`), empty answer
for an empty frame, rows with any NaN column skipped, and the hard guard
emptying an answer with fewer than 2 rows. -/
def getOhlcvData (table : List VBar) (limit : ℕ) : List VBar :=
  if (table.drop (table.length - limit)).isEmpty then []
  else if ((table.drop (table.length - limit)).filter vbarNoNan).length < 2 then []
  else (table.drop (table.length - limit)).filter vbarNoNan

/-- Concrete 5-point price series (claim C3's witness). -/
def ex3a : List (ℕ × Option ℚ) :=
  [(0, some 10), (1, some 11), (2, some 12), (3, some 11), (4, some 13)]

/-- Concrete 5-point price series (claim C3's witness). -/
def ex3b : List (ℕ × Option ℚ) :=
  [(0, some 5), (1, some 6), (2, some 5), (3, some 7), (4, some 6)]

/-- Concrete constant spread series of length 4 (claim C4's witness). -/
def ex4spread : List (ℕ × ℚ) := [(0, 1), (1, 1), (2, 1), (3, 1)]

/-- Concrete 5-point price series (claim C7's witness). -/
def ex7a : List (ℕ × Option ℚ) :=
  [(0, some 4), (1, some 8), (2, some 3), (3, some 9), (4, some 5)]

/-- Concrete 5-point price series (claim C7's witness). -/
def ex7b : List (ℕ × Option ℚ) :=
  [(0, some 2), (1, some 3), (2, some 2), (3, some 4), (4, some 3)]

/-- Ten-point price series (claim C7's counterexample, first leg). -/
def ex7ra : List (ℕ × Option ℚ) :=
  [(0, some 3), (1, some 5), (2, some 4), (3, some 6), (4, some 3),
   (5, some 7), (6, some 4), (7, some 6), (8, some 5), (9, some 7)]

/-- Constant ten-point price series (claim C7's counterexample, second
leg): with at least 10 aligned points and all x values identical,
`stats.linregress` raises. -/
def ex7rb : List (ℕ × Option ℚ) :=
  [(0, some 2), (1, some 2), (2, some 2), (3, some 2), (4, some 2),
   (5, some 2), (6, some 2), (7, some 2), (8, some 2), (9, some 2)]

/-- Concrete non-constant price series with 5 aligned points (claim C9). -/
def ex9b : List (ℕ × Option ℚ) :=
  [(0, some 1), (1, some 2), (2, some 1), (3, some 2), (4, some 1)]

/-- `ex9b` shifted up by 1, so the spread at hedge ratio 1 is constantly 1
(claim C9). -/
def ex9a : List (ℕ × Option ℚ) :=
  [(0, some 2), (1, some 3), (2, some 2), (3, some 3), (4, some 2)]

/-- A concrete tick (witnesses for claims C6 and C8). -/
def tick0 : Tick := { symbol := "BTCUSDT", timestamp := 0, price := 7, quantity := 1 }

/-- A second concrete tick (claim C6's witness). -/
def tick1 : Tick := { symbol := "BTCUSDT", timestamp := 61, price := 9, quantity := 2 }

/-- A concrete storage state holding two buffered ticks (claim C6's
witness). -/
def ex6st : Storage :=
  { tickBuffer := [("BTCUSDT", [tick0, tick1])], resampled := [] }

/-- An in-memory OHLCV table whose first row carries an infinite open price
but no NaN (claim C10's counterexample). -/
def table10 : List VBar :=
  [{ timestamp := 0, open_ := V.inf, high := V.num 2 1, low := V.num 1 1,
     close := V.num 2 1, volume := V.num 3 1 },
   { timestamp := 60, open_ := V.num 2 1, high := V.num 2 1, low := V.num 2 1,
     close := V.num 2 1, volume := V.num 1 1 }]

theorem goodSeriesB_series_to_list_safe (s : List (ℕ × V)) :
    goodSeriesB (series_to_list_safe s) = true := by
  unfold series_to_list_safe
  by_cases hps : is_plot_safe s 3 = true
  · have hlen : ¬ s.length < 3 := by
      intro h
      unfold is_plot_safe at hps
      rw [if_pos h] at hps
      cases hps
    have hclean : (s.any (fun p => isNanB p.2) || s.any (fun p => isInfB p.2)) = false := by
      cases hor : (s.any (fun p => isNanB p.2) || s.any (fun p => isInfB p.2)) with
      | false => rfl
      | true =>
        exfalso
        unfold is_plot_safe at hps
        rw [if_neg hlen, if_pos hor] at hps
        cases hps
    have hnu : ¬ nuniqueV (s.map Prod.snd) ≤ 1 := by
      intro h
      unfold is_plot_safe at hps
      rw [if_neg hlen, if_neg (by simp [hclean]), if_pos h] at hps
      cases hps
    have hnan : ∀ p ∈ s, isNanB p.2 = false := by
      intro p hp
      have hA : s.any (fun p => isNanB p.2) = false :=
        (Bool.or_eq_false_iff.mp hclean).1
      have := List.any_eq_false.mp hA p hp
      simpa using this
    have hinf : ∀ p ∈ s, isInfB p.2 = false := by
      intro p hp
      have hB : s.any (fun p => isInfB p.2) = false :=
        (Bool.or_eq_false_iff.mp hclean).2
      have := List.any_eq_false.mp hB p hp
      simpa using this
    have hfil : s.filter (fun p => !(isNanB p.2 || isInfB p.2)) = s := by
      apply List.filter_eq_self.mpr
      intro p hp
      simp [hnan p hp, hinf p hp]
    rw [hps]
    simp only [Bool.not_true, Bool.false_eq_true, if_false, hfil]
    rw [if_neg (by omega)]
    have hcd : 2 ≤ countDistinct (s.map Prod.snd) := by
      have hfil2 : (s.map Prod.snd).filter (fun v => !(isNanB v)) = s.map Prod.snd := by
        apply List.filter_eq_self.mpr
        intro v hv
        obtain ⟨p, hp, rfl⟩ := List.mem_map.mp hv
        simp [hnan p hp]
      unfold nuniqueV at hnu
      rw [hfil2] at hnu
      omega
    have hall : s.all (fun p => !(isNanB p.2 || isInfB p.2)) = true := by
      apply List.all_eq_true.mpr
      intro p hp
      simp [hnan p hp, hinf p hp]
    unfold goodSeriesB
    simp only [Bool.or_eq_true, Bool.and_eq_true, decide_eq_true_eq]
    exact Or.inr ⟨⟨by omega, hall⟩, hcd⟩
  · have hf : is_plot_safe s 3 = false := by
      revert hps
      cases is_plot_safe s 3 <;> simp
    simp [hf, goodSeriesB]

/-- C1: for every pair of input price series and every window, each of the
three series (spread, zscore, correlation) in the result returned by
`PairAnalysis.analyze_pair` is either empty or has at least 2 points, no
NaN/infinite value, and at least 2 distinct values. -/
theorem claim1_gating_invariant (oracle : List ℚ → ADFRes) (sym1 sym2 : String)
    (s1 s2 : List (ℕ × Option ℚ)) (window : ℕ) :
    resultSeriesOk (analyzePair oracle sym1 sym2 s1 s2 window) = true := by
  unfold analyzePair
  split_ifs with h1 h2
  · rfl
  · rfl
  · simp [resultSeriesOk, fullResultOf, goodSeriesB_series_to_list_safe]

/-- C2: whenever the aligned length is below `max(5, window)`,
`analyze_pair` returns the insufficient-data result carrying the observed
aligned count and the required minimum (and, being the error variant, none
of the analysis fields). -/
theorem claim2_insufficient_data (oracle : List ℚ → ADFRes) (sym1 sym2 : String)
    (s1 s2 : List (ℕ × Option ℚ)) (window : ℕ)
    (h : (alignPair s1 s2).length < max 5 window) :
    analyzePair oracle sym1 sym2 s1 s2 window
      = AnalyzeOutcome.insufficient (alignPair s1 s2).length (max 5 window) := by
  unfold analyzePair
  rw [if_pos h]

theorem claim2_witness :
    (alignPair ([] : List (ℕ × Option ℚ)) []).length < max 5 20 ∧
    analyzePair oracle0 "BTCUSDT" "ETHUSDT" [] [] 20
      = AnalyzeOutcome.insufficient
          (alignPair ([] : List (ℕ × Option ℚ)) []).length (max 5 20) :=
  ⟨by decide, claim2_insufficient_data oracle0 "BTCUSDT" "ETHUSDT" [] [] 20 (by decide)⟩

/-- C3: with an aligned length at least `max(5, window)` but below 10, the
OLS stage degrades: the full result is returned with `hedge_ratio` exactly
1.0 and `r_squared` exactly 0.0. -/
theorem claim3_hedge_degenerate (oracle : List ℚ → ADFRes) (sym1 sym2 : String)
    (s1 s2 : List (ℕ × Option ℚ)) (window : ℕ)
    (hga : max 5 window ≤ (alignPair s1 s2).length)
    (hlt : (alignPair s1 s2).length < 10) :
    analyzePair oracle sym1 sym2 s1 s2 window
      = AnalyzeOutcome.ok (fullResultOf oracle sym1 sym2 s1 s2 window) ∧
    (fullResultOf oracle sym1 sym2 s1 s2 window).hedge_ratio = some (V.num 1 1) ∧
    (fullResultOf oracle sym1 sym2 s1 s2 window).r_squared = some (V.num 0 1) := by
  refine ⟨?_, ?_, ?_⟩
  · unfold analyzePair
    rw [if_neg (Nat.not_lt.mpr hga), if_neg (by rintro ⟨h10, _⟩; omega)]
  · show sanitizeV (V.num (hedgeOf (alignPair s1 s2)) 1) = some (V.num 1 1)
    unfold hedgeOf
    rw [if_pos hlt]
    rfl
  · show sanitizeV (V.num (r2Of (alignPair s1 s2)) 1) = some (V.num 0 1)
    unfold r2Of
    rw [if_pos hlt]
    rfl

theorem claim3_witness :
    max 5 5 ≤ (alignPair ex3a ex3b).length ∧ (alignPair ex3a ex3b).length < 10 ∧
    (analyzePair oracle0 "BTCUSDT" "ETHUSDT" ex3a ex3b 5
        = AnalyzeOutcome.ok (fullResultOf oracle0 "BTCUSDT" "ETHUSDT" ex3a ex3b 5) ∧
      (fullResultOf oracle0 "BTCUSDT" "ETHUSDT" ex3a ex3b 5).hedge_ratio = some (V.num 1 1) ∧
      (fullResultOf oracle0 "BTCUSDT" "ETHUSDT" ex3a ex3b 5).r_squared = some (V.num 0 1)) :=
  ⟨by decide, by decide,
   claim3_hedge_degenerate oracle0 "BTCUSDT" "ETHUSDT" ex3a ex3b 5 (by decide) (by decide)⟩

/-- C7 (counterexample): at `ex7ra`/`ex7rb` — 10 aligned points, so the
alignment gate passes, and a spread of 10 < 12 points — the aligned
second-leg prices are all identical, so `stats.linregress` raises an
uncaught `ValueError` (analytics.py line 203) and `analyze_pair` returns no
full result at all; the claim as frozen is false at this input. -/
theorem claim7_cex :
    max 5 5 ≤ (alignPair ex7ra ex7rb).length ∧
    (spreadSeries ex7ra ex7rb).length < 12 ∧
    analyzePair oracle0 "BTCUSDT" "ETHUSDT" ex7ra ex7rb 5 = AnalyzeOutcome.raised := by
  refine ⟨by decide, ?_, by decide⟩
  show (spreadOf (alignPair ex7ra ex7rb) (hedgeOf (alignPair ex7ra ex7rb))).length < 12
  unfold spreadOf
  rw [List.length_map]
  decide

/-- C7 (amended): for every pair of input series and window whose aligned
length is at least `max(5, window)` and whose OLS stage does not raise —
fewer than 10 aligned points, or the aligned second-leg prices not all
identical; otherwise `stats.linregress` raises an uncaught `ValueError` —
if the resulting spread has strictly fewer than 12 points, `analyze_pair`
returns the full result in which only the stationarity sub-block holds the
explicit error marker, while all other fields (hedge ratio, stats, series)
are present. -/
theorem claim7_amended (oracle : List ℚ → ADFRes) (sym1 sym2 : String)
    (s1 s2 : List (ℕ × Option ℚ)) (window : ℕ)
    (hga : max 5 window ≤ (alignPair s1 s2).length)
    (hnr : ¬ (10 ≤ (alignPair s1 s2).length ∧
      isConstant ((alignPair s1 s2).map (fun a => a.2.2)) = true))
    (hsp : (spreadSeries s1 s2).length < 12) :
    analyzePair oracle sym1 sym2 s1 s2 window
      = AnalyzeOutcome.ok (fullResultOf oracle sym1 sym2 s1 s2 window) ∧
    (fullResultOf oracle sym1 sym2 s1 s2 window).adf_test
      = SanADFRes.err "Insufficient data for ADF test" := by
  refine ⟨?_, ?_⟩
  · unfold analyzePair
    rw [if_neg (Nat.not_lt.mpr hga), if_neg hnr]
  · show sanitizeADF (adfTest oracle ((spreadSeries s1 s2).map Prod.snd))
        = SanADFRes.err "Insufficient data for ADF test"
    unfold adfTest
    rw [List.length_map, if_pos hsp]
    rfl

theorem claim7_witness :
    max 5 5 ≤ (alignPair ex7a ex7b).length ∧
    ¬ (10 ≤ (alignPair ex7a ex7b).length ∧
      isConstant ((alignPair ex7a ex7b).map (fun a => a.2.2)) = true) ∧
    (spreadSeries ex7a ex7b).length < 12 ∧
    (analyzePair oracle0 "BTCUSDT" "ETHUSDT" ex7a ex7b 5
        = AnalyzeOutcome.ok (fullResultOf oracle0 "BTCUSDT" "ETHUSDT" ex7a ex7b 5) ∧
      (fullResultOf oracle0 "BTCUSDT" "ETHUSDT" ex7a ex7b 5).adf_test
        = SanADFRes.err "Insufficient data for ADF test") :=
  ⟨by decide, by decide, by decide,
   claim7_amended oracle0 "BTCUSDT" "ETHUSDT" ex7a ex7b 5
     (by decide) (by decide) (by decide)⟩

/-- C9: the scalar fields `current_spread`, `current_zscore`,
`current_correlation` of a full result are the sanitised last elements of
the corresponding pre-gate series; and at the concrete input `ex9a`/`ex9b`
(constant spread) `current_spread` is a present finite number while the
gated spread series in the same result is empty. -/
theorem claim9_currents_pregate (oracle : List ℚ → ADFRes) (sym1 sym2 : String)
    (s1 s2 : List (ℕ × Option ℚ)) (window : ℕ) (f : FullResult)
    (hok : analyzePair oracle sym1 sym2 s1 s2 window = AnalyzeOutcome.ok f) :
    (f.current_spread = currentOfQ (spreadSeries s1 s2) ∧
     f.current_zscore = currentOfV (zscoreSeries s1 s2 window) ∧
     f.current_correlation = currentOfV (corrSeries s1 s2 window)) ∧
    (analyzePair oracle0 "BTCUSDT" "ETHUSDT" ex9a ex9b 5
        = AnalyzeOutcome.ok (fullResultOf oracle0 "BTCUSDT" "ETHUSDT" ex9a ex9b 5) ∧
     (fullResultOf oracle0 "BTCUSDT" "ETHUSDT" ex9a ex9b 5).current_spread
        = some (V.num 1 1) ∧
     (fullResultOf oracle0 "BTCUSDT" "ETHUSDT" ex9a ex9b 5).series_spread = []) := by
  constructor
  · have hf : f = fullResultOf oracle sym1 sym2 s1 s2 window := by
      unfold analyzePair at hok
      split_ifs at hok
      exact (AnalyzeOutcome.ok.inj hok).symm
    subst hf
    exact ⟨rfl, rfl, rfl⟩
  · have halign : alignPair ex9a ex9b =
        [(0, 2, 1), (1, 3, 2), (2, 2, 1), (3, 3, 2), (4, 2, 1)] := rfl
    have hhedge : hedgeOf (alignPair ex9a ex9b) = 1 := rfl
    have hspread : spreadSeries ex9a ex9b = [(0, 1), (1, 1), (2, 1), (3, 1), (4, 1)] := by
      show spreadOf (alignPair ex9a ex9b) (hedgeOf (alignPair ex9a ex9b)) = _
      rw [hhedge, halign]
      norm_num [spreadOf]
    refine ⟨?_, ?_, ?_⟩
    · unfold analyzePair
      rw [if_neg (by decide), if_neg (by decide)]
    · show currentOfQ (spreadSeries ex9a ex9b) = some (V.num 1 1)
      rw [hspread]
      rfl
    · show series_to_list_safe
          ((spreadSeries ex9a ex9b).map (fun p => (p.1, V.num p.2 1))) = []
      rw [hspread]
      norm_num [series_to_list_safe, is_plot_safe, nuniqueV, countDistinct, vEq, vsgn,
        isNanB, isInfB]

theorem claim9_witness :
    analyzePair oracle0 "BTCUSDT" "ETHUSDT" ex9a ex9b 5
      = AnalyzeOutcome.ok (fullResultOf oracle0 "BTCUSDT" "ETHUSDT" ex9a ex9b 5) ∧
    (((fullResultOf oracle0 "BTCUSDT" "ETHUSDT" ex9a ex9b 5).current_spread
        = currentOfQ (spreadSeries ex9a ex9b) ∧
      (fullResultOf oracle0 "BTCUSDT" "ETHUSDT" ex9a ex9b 5).current_zscore
        = currentOfV (zscoreSeries ex9a ex9b 5) ∧
      (fullResultOf oracle0 "BTCUSDT" "ETHUSDT" ex9a ex9b 5).current_correlation
        = currentOfV (corrSeries ex9a ex9b 5)) ∧
     (analyzePair oracle0 "BTCUSDT" "ETHUSDT" ex9a ex9b 5
        = AnalyzeOutcome.ok (fullResultOf oracle0 "BTCUSDT" "ETHUSDT" ex9a ex9b 5) ∧
      (fullResultOf oracle0 "BTCUSDT" "ETHUSDT" ex9a ex9b 5).current_spread
        = some (V.num 1 1) ∧
      (fullResultOf oracle0 "BTCUSDT" "ETHUSDT" ex9a ex9b 5).series_spread = [])) :=
  ⟨by unfold analyzePair; rw [if_neg (by decide), if_neg (by decide)],
   claim9_currents_pregate oracle0 "BTCUSDT" "ETHUSDT" ex9a ex9b 5
     (fullResultOf oracle0 "BTCUSDT" "ETHUSDT" ex9a ex9b 5)
     (by unfold analyzePair; rw [if_neg (by decide), if_neg (by decide)])⟩

theorem qsum_const (l : List ℚ) (c : ℚ) (h : ∀ x ∈ l, x = c) :
    l.sum = (l.length : ℚ) * c := by
  rw [List.sum_eq_card_nsmul l c h, nsmul_eq_mul]

theorem qmean_const (l : List ℚ) (c : ℚ) (hne : l ≠ []) (h : ∀ x ∈ l, x = c) :
    qmean l = c := by
  unfold qmean
  rw [qsum_const l c h]
  have hlen : (l.length : ℚ) ≠ 0 := by
    have := List.length_pos.mpr hne
    exact_mod_cast Nat.pos_iff_ne_zero.mp this
  field_simp

theorem qsxx_const (l : List ℚ) (c : ℚ) (h : ∀ x ∈ l, x = c) : qsxx l = 0 := by
  unfold qsxx
  apply List.sum_eq_zero
  intro y hy
  obtain ⟨x, hx, rfl⟩ := List.mem_map.mp hy
  have hne : l ≠ [] := by
    intro hl
    rw [hl] at hx
    cases hx
  rw [h x hx, qmean_const l c hne h]
  ring

theorem windowAt_length {α : Type} (l : List α) (w i : ℕ) (hi : i < l.length)
    (hw : w ≤ i + 1) : (windowAt l w i).length = w := by
  unfold windowAt
  rw [List.length_drop, List.length_take]
  omega

theorem windowVar_const (vals : List ℚ) (w i : ℕ) (c : ℚ) (hi : i < vals.length)
    (hw2 : 2 ≤ w) (hwi : w ≤ i + 1)
    (hconst : ∀ v ∈ windowAt vals w i, v = c) :
    windowVar vals w i = some 0 := by
  unfold windowVar
  have hlen : (windowAt vals w i).length = w := windowAt_length vals w i hi hwi
  rw [if_neg (by omega)]
  rw [qsxx_const _ c hconst, zero_div]

theorem zscoreEntry_eq_some (spread : List (ℕ × ℚ)) (w j : ℕ) (p : ℕ × V)
    (h : zscoreEntry spread w j = some p) :
    ∃ v q, windowVar (spread.map Prod.snd) w j = some v ∧ v ≠ 0 ∧
      spread[j]? = some q ∧ p.1 = q.1 ∧
      p.2 = V.num ((q.2 - qmean (windowAt (spread.map Prod.snd) w j)) / v) v := by
  unfold zscoreEntry at h
  split_ifs at h
  rcases hv : windowVar (spread.map Prod.snd) w j with _ | v
  · rw [hv] at h
    simp at h
  · rcases hg : spread[j]? with _ | q
    · rw [hv, hg] at h
      simp at h
    · rw [hv, hg] at h
      have h2 : (if v = 0 then none
          else some (q.1,
            V.num ((q.2 - qmean (windowAt (spread.map Prod.snd) w j)) / v) v))
          = some p := h
      split_ifs at h2 with hz
      refine ⟨v, q, rfl, hz, rfl, ?_, ?_⟩
      · exact congrArg Prod.fst (Option.some.inj h2).symm
      · exact congrArg Prod.snd (Option.some.inj h2).symm

/-- C4: positions of the rolling z-score whose trailing rolling standard
deviation is exactly zero are dropped, never emitted as zero, NaN or
infinity (every emitted value is a finite number), and in particular a
constant-valued spread window of length at least `w` contributes no z-score
point at its end position. -/
theorem claim4_zscore_zero_std (spread : List (ℕ × ℚ)) (w : ℕ)
    (hnd : (spread.map Prod.fst).Nodup) :
    (∀ p ∈ rollingZscore spread w, ∃ a r, p.2 = V.num a r) ∧
    (∀ i t x, spread[i]? = some (t, x) →
      windowVar (spread.map Prod.snd) w i = some 0 →
      t ∉ (rollingZscore spread w).map Prod.fst) ∧
    (∀ i t x c, spread[i]? = some (t, x) → 2 ≤ w → w ≤ i + 1 →
      (∀ v ∈ windowAt (spread.map Prod.snd) w i, v = c) →
      t ∉ (rollingZscore spread w).map Prod.fst) := by
  have habs : ∀ i t x, spread[i]? = some (t, x) →
      windowVar (spread.map Prod.snd) w i = some 0 →
      t ∉ (rollingZscore spread w).map Prod.fst := by
    intro i t x hget hvar hmem
    unfold rollingZscore at hmem
    by_cases hlw : spread.length < w
    · rw [if_pos hlw] at hmem
      simp at hmem
    · rw [if_neg hlw] at hmem
      obtain ⟨p, hp, hpt⟩ := List.mem_map.mp hmem
      obtain ⟨j, hj, hent⟩ := List.mem_filterMap.mp hp
      obtain ⟨v, q, hv, hvne, hgj, hp1, _⟩ := zscoreEntry_eq_some spread w j p hent
      by_cases hij : j = i
      · subst hij
        rw [hv] at hvar
        exact hvne (Option.some.inj hvar)
      · apply hij
        have hjlen : j < spread.length := List.mem_range.mp hj
        have h1 : (spread.map Prod.fst)[j]? = some q.1 := by
          rw [List.getElem?_map, hgj]
          rfl
        have h2 : (spread.map Prod.fst)[i]? = some t := by
          rw [List.getElem?_map, hget]
          rfl
        refine List.getElem?_inj (by simpa using hjlen) hnd ?_
        rw [h1, h2, hp1.symm.trans hpt]
  refine ⟨?_, habs, ?_⟩
  · intro p hp
    unfold rollingZscore at hp
    by_cases hlw : spread.length < w
    · rw [if_pos hlw] at hp
      simp at hp
    · rw [if_neg hlw] at hp
      obtain ⟨j, hj, hent⟩ := List.mem_filterMap.mp hp
      obtain ⟨v, q, _, _, _, _, hp2⟩ := zscoreEntry_eq_some spread w j p hent
      exact ⟨_, _, hp2⟩
  · intro i t x c hget hw2 hwi hconst
    have hil : i < spread.length := by
      by_contra hc
      rw [List.getElem?_eq_none (by omega)] at hget
      cases hget
    refine habs i t x hget ?_
    exact windowVar_const (spread.map Prod.snd) w i c (by simpa using hil) hw2 hwi hconst

theorem claim4_witness :
    (ex4spread.map Prod.fst).Nodup ∧
    ex4spread[3]? = some (3, 1) ∧
    windowVar (ex4spread.map Prod.snd) 3 3 = some 0 ∧
    (3 : ℕ) ∉ (rollingZscore ex4spread 3).map Prod.fst := by
  have hnd : (ex4spread.map Prod.fst).Nodup := by decide
  have hget : ex4spread[3]? = some ((3 : ℕ), (1 : ℚ)) := rfl
  have hvar : windowVar (ex4spread.map Prod.snd) 3 3 = some 0 := by
    norm_num [windowVar, windowAt, qsxx, qmean, ex4spread]
  exact ⟨hnd, hget, hvar,
    (claim4_zscore_zero_std ex4spread 3 hnd).2.1 3 3 1 hget hvar⟩

theorem assocEnsure_idem {κ β : Type} [DecidableEq κ] (l : List (κ × β)) (k : κ) (d : β) :
    assocEnsure (assocEnsure l k d) k d = assocEnsure l k d := by
  by_cases h : l.any (fun p => decide (p.1 = k)) = true
  · have h1 : assocEnsure l k d = l := by
      unfold assocEnsure
      rw [if_pos h]
    rw [h1]
    exact h1
  · have h1 : assocEnsure l k d = l ++ [(k, d)] := by
      unfold assocEnsure
      rw [if_neg h]
    rw [h1]
    unfold assocEnsure
    rw [if_pos (by simp)]

theorem assocGet_ensure {κ β : Type} [DecidableEq κ] (l : List (κ × β)) (k : κ) (d : β) :
    assocGet (assocEnsure l k d) k d = assocGet l k d := by
  by_cases h : l.any (fun p => decide (p.1 = k)) = true
  · unfold assocEnsure
    rw [if_pos h]
  · unfold assocEnsure
    rw [if_neg h]
    unfold assocGet
    have hfalse : l.any (fun p => decide (p.1 = k)) = false := by
      revert h
      cases l.any (fun p => decide (p.1 = k)) <;> simp
    have hf : l.find? (fun p => decide (p.1 = k)) = none := by
      rw [List.find?_eq_none]
      intro p hp
      have := List.any_eq_false.mp hfalse p hp
      simpa using this
    rw [List.find?_append, hf]
    simp

theorem assocSet_idem {κ β : Type} [DecidableEq κ] (l : List (κ × β)) (k : κ) (v : β) :
    assocSet (assocSet l k v) k v = assocSet l k v := by
  by_cases h : l.any (fun p => decide (p.1 = k)) = true
  · have h1 : assocSet l k v = l.map (fun p => if p.1 = k then (p.1, v) else p) := by
      unfold assocSet
      rw [if_pos h]
    rw [h1]
    unfold assocSet
    obtain ⟨p, hp, hpk⟩ := List.any_eq_true.mp h
    have hk : p.1 = k := of_decide_eq_true hpk
    have h2 : (l.map (fun p => if p.1 = k then (p.1, v) else p)).any
        (fun p => decide (p.1 = k)) = true := by
      apply List.any_eq_true.mpr
      refine ⟨if p.1 = k then (p.1, v) else p, List.mem_map_of_mem _ hp, ?_⟩
      rw [if_pos hk]
      simp [hk]
    rw [if_pos h2, List.map_map]
    apply List.map_congr_left
    intro q hq
    by_cases hqk : q.1 = k
    · simp [Function.comp, hqk]
    · simp [Function.comp, hqk]
  · have h1 : assocSet l k v = l ++ [(k, v)] := by
      unfold assocSet
      rw [if_neg h]
    rw [h1]
    unfold assocSet
    rw [if_pos (by simp), List.map_append]
    have hfalse : l.any (fun p => decide (p.1 = k)) = false := by
      revert h
      cases l.any (fun p => decide (p.1 = k)) <;> simp
    have h3 : l.map (fun p => if p.1 = k then (p.1, v) else p) = l := by
      conv_rhs => rw [← List.map_id l]
      apply List.map_congr_left
      intro q hq
      have hqk : ¬ q.1 = k := by
        have := List.any_eq_false.mp hfalse q hq
        simpa using this
      simp [hqk]
    rw [h3]
    simp

/-- C5 (code evaluation at the failing input): on a fresh `DataStorage`, a
single `get_recent_ticks("GHOST")` query — with no tick ever added — makes
`get_all_symbols` return `["GHOST"]`, because the `defaultdict` read
materialises the key.  The claim (and the spec) require the empty list
here. -/
theorem claim5_code_eval :
    getAllSymbols (runOps [StoreOp.readRecent "GHOST" 1000] initStorage) = ["GHOST"] := rfl

/-- C6: resampling twice from the same buffer snapshot returns the same bar
sequence and leaves the whole in-memory state (in particular the
`(symbol, timeframe)` table) unchanged after the second invocation. -/
theorem claim6_resample_idempotent (st : Storage) (sym tf : String) (secs : ℕ)
    (_hs : 1 ≤ secs) :
    resampleToOhlcv (resampleToOhlcv st sym tf secs).2 sym tf secs
      = resampleToOhlcv st sym tf secs := by
  have hidem := assocEnsure_idem st.tickBuffer sym ([] : List Tick)
  by_cases h2 : (recentSlice (assocGet (assocEnsure st.tickBuffer sym []) sym []) 1000).length < 2
  · have e1 : resampleToOhlcv st sym tf secs
        = (none, ⟨assocEnsure st.tickBuffer sym [], st.resampled⟩) := by
      simp only [resampleToOhlcv, getRecentTicks]
      rw [if_pos h2]
    rw [e1]
    simp only [resampleToOhlcv, getRecentTicks]
    rw [hidem, if_pos h2]
  · have e1 : resampleToOhlcv st sym tf secs
        = (some (computeBars
            (recentSlice (assocGet (assocEnsure st.tickBuffer sym []) sym []) 1000) secs),
           ⟨assocEnsure st.tickBuffer sym [],
            assocSet st.resampled (sym, tf)
              (computeBars
                (recentSlice (assocGet (assocEnsure st.tickBuffer sym []) sym []) 1000)
                secs)⟩) := by
      simp only [resampleToOhlcv, getRecentTicks]
      rw [if_neg h2]
    rw [e1]
    simp only [resampleToOhlcv, getRecentTicks]
    rw [hidem, if_neg h2, assocSet_idem]

theorem claim6_witness :
    1 ≤ 60 ∧
    resampleToOhlcv (resampleToOhlcv ex6st "BTCUSDT" "1m" 60).2 "BTCUSDT" "1m" 60
      = resampleToOhlcv ex6st "BTCUSDT" "1m" 60 :=
  ⟨by decide, claim6_resample_idempotent ex6st "BTCUSDT" "1m" 60 (by decide)⟩

theorem dequePush_eq_drop {α : Type} (cap : ℕ) (l : List α) (a : α) :
    dequePush cap l a = (l ++ [a]).drop (l.length + 1 - cap) := by
  unfold dequePush
  by_cases h : cap < l.length + 1
  · rw [if_pos h]
  · rw [if_neg h, Nat.sub_eq_zero_of_le (by omega), List.drop_zero]

theorem dequeFold {α : Type} (cap : ℕ) (ts : List α) :
    ∀ buf : List α, buf.length ≤ cap →
      ts.foldl (dequePush cap) buf = (buf ++ ts).drop (buf.length + ts.length - cap) := by
  induction ts with
  | nil =>
    intro buf hb
    simp [Nat.sub_eq_zero_of_le hb]
  | cons a ts ih =>
    intro buf hb
    rw [List.foldl_cons]
    have hlen : (dequePush cap buf a).length ≤ cap := by
      rw [dequePush_eq_drop, List.length_drop, List.length_append,
        List.length_singleton]
      omega
    rw [ih _ hlen, dequePush_eq_drop]
    have h1 : ((buf ++ [a]).drop (buf.length + 1 - cap)).length
        = buf.length + 1 - (buf.length + 1 - cap) := by
      rw [List.length_drop, List.length_append, List.length_singleton]
    rw [h1]
    have happ : ((buf ++ [a]) ++ ts).drop (buf.length + 1 - cap)
        = (buf ++ [a]).drop (buf.length + 1 - cap) ++ ts :=
      List.drop_append_of_le_length
        (by rw [List.length_append, List.length_singleton]; omega)
    rw [← happ]
    rw [List.drop_drop, List.append_assoc]
    have h2 : [a] ++ ts = a :: ts := rfl
    rw [h2]
    congr 1
    simp only [List.length_cons]
    omega

theorem assocGet_cons_ne {κ β : Type} [DecidableEq κ] (p : κ × β) (l : List (κ × β))
    (k : κ) (d : β) (h : ¬ p.1 = k) : assocGet (p :: l) k d = assocGet l k d := by
  unfold assocGet
  rw [List.find?_cons_of_neg _ (by simpa using h)]

theorem assocGet_update_ensure {κ β : Type} [DecidableEq κ] (l : List (κ × β))
    (k : κ) (d : β) (f : β → β) :
    assocGet (assocUpdate (assocEnsure l k d) k f) k d = f (assocGet l k d) := by
  induction l with
  | nil => simp [assocEnsure, assocUpdate, assocGet]
  | cons p rest ih =>
    by_cases hpk : p.1 = k
    · have hens : assocEnsure (p :: rest) k d = p :: rest := by
        unfold assocEnsure
        rw [if_pos (by simp [hpk])]
      rw [hens]
      unfold assocUpdate assocGet
      rw [List.map_cons, if_pos hpk,
        List.find?_cons_of_pos _ (by simp [hpk]),
        List.find?_cons_of_pos _ (by simp [hpk])]
    · have hens : assocEnsure (p :: rest) k d = p :: assocEnsure rest k d := by
        unfold assocEnsure
        by_cases hr : rest.any (fun q => decide (q.1 = k)) = true
        · rw [if_pos (by simp [hr]), if_pos hr]
        · have hrf : rest.any (fun q => decide (q.1 = k)) = false := by
            revert hr
            cases rest.any (fun q => decide (q.1 = k)) <;> simp
          rw [if_neg (by simp [hpk, hrf]), if_neg hr]
          rfl
      rw [hens]
      show assocGet ((if p.1 = k then (p.1, f p.2) else p) ::
        assocUpdate (assocEnsure rest k d) k f) k d = f (assocGet (p :: rest) k d)
      rw [if_neg hpk, assocGet_cons_ne _ _ _ _ hpk, assocGet_cons_ne _ _ _ _ hpk]
      exact ih

theorem addTick_bufGet (st : Storage) (t : Tick) :
    assocGet (addTick st t).tickBuffer t.symbol []
      = dequePush 10000 (assocGet st.tickBuffer t.symbol []) t :=
  assocGet_update_ensure st.tickBuffer t.symbol [] (fun d => dequePush 10000 d t)

theorem foldl_addTick (sym : String) (ts : List Tick) :
    ∀ st : Storage, (∀ t ∈ ts, t.symbol = sym) →
      assocGet ((ts.foldl addTick st).tickBuffer) sym []
        = ts.foldl (dequePush 10000) (assocGet st.tickBuffer sym []) := by
  induction ts with
  | nil =>
    intro st _
    rfl
  | cons t ts ih =>
    intro st h
    rw [List.foldl_cons, List.foldl_cons]
    have hsym : t.symbol = sym := h t (List.mem_cons_self t ts)
    rw [ih (addTick st t) (fun x hx => h x (List.mem_cons_of_mem t hx))]
    congr 1
    rw [← hsym]
    exact addTick_bufGet st t

/-- C8: feeding any tick sequence for one symbol into the storage, the
symbol's buffer never exceeds the capacity 10000, and after more than 10000
insertions the buffer holds exactly the last 10000 ticks in insertion
order. -/
theorem claim8_buffer_capacity (ts : List Tick) (sym : String)
    (h : ∀ t ∈ ts, t.symbol = sym) :
    (assocGet ((ts.foldl addTick initStorage).tickBuffer) sym []).length ≤ 10000 ∧
    (10000 < ts.length →
      assocGet ((ts.foldl addTick initStorage).tickBuffer) sym []
        = ts.drop (ts.length - 10000)) := by
  have hfold := foldl_addTick sym ts initStorage h
  rw [show assocGet (initStorage.tickBuffer) sym ([] : List Tick) = [] from rfl] at hfold
  rw [dequeFold 10000 ts [] (by simp)] at hfold
  simp only [List.nil_append, List.length_nil, Nat.zero_add] at hfold
  constructor
  · rw [hfold, List.length_drop]
    omega
  · intro _
    exact hfold

theorem claim8_witness :
    (List.replicate 10001 tick0).all (fun t => decide (t.symbol = "BTCUSDT")) = true ∧
    10000 < (List.replicate 10001 tick0).length ∧
    assocGet (((List.replicate 10001 tick0).foldl addTick initStorage).tickBuffer)
        "BTCUSDT" []
      = (List.replicate 10001 tick0).drop ((List.replicate 10001 tick0).length - 10000) := by
  have hsym : ∀ t ∈ List.replicate 10001 tick0, t.symbol = "BTCUSDT" := by
    intro t ht
    rw [List.eq_of_mem_replicate ht]
    rfl
  refine ⟨?_, ?_, ?_⟩
  · exact List.all_eq_true.mpr (fun t ht => decide_eq_true (hsym t ht))
  · rw [List.length_replicate]
    omega
  · exact (claim8_buffer_capacity (List.replicate 10001 tick0) "BTCUSDT" hsym).2
      (by rw [List.length_replicate]; omega)

/-- C10 (counterexample): at the concrete table `table10` — two NaN-free
rows, the first with an infinite open price — the endpoint returns both
rows, so the returned list is not all-finite although its length gate
passes; the claim as stated is false at this input. -/
theorem claim10_cex :
    ¬ (((getOhlcvData table10 1000).all vbarFinite = true) ∧
       (getOhlcvData table10 1000 = [] ∨ 2 ≤ (getOhlcvData table10 1000).length)) := by
  decide

/-- C10 (amended): every bar returned by the `get_ohlcv` endpoint has no NaN
field (infinities are not filtered), and the returned list has length 0 or
at least 2. -/
theorem claim10_no_nan_and_length (table : List VBar) (limit : ℕ) :
    (getOhlcvData table limit).all vbarNoNan = true ∧
    (getOhlcvData table limit = [] ∨ 2 ≤ (getOhlcvData table limit).length) := by
  unfold getOhlcvData
  by_cases he : (table.drop (table.length - limit)).isEmpty = true
  · rw [if_pos he]
    exact ⟨rfl, Or.inl rfl⟩
  · rw [if_neg he]
    by_cases hl : ((table.drop (table.length - limit)).filter vbarNoNan).length < 2
    · rw [if_pos hl]
      exact ⟨rfl, Or.inl rfl⟩
    · rw [if_neg hl]
      constructor
      · apply List.all_eq_true.mpr
        intro b hb
        exact (List.mem_filter.mp hb).2
      · right
        omega
